import Mathlib

/-!
Shallow embedding of the dictionary persistence layer of StoryKeeperAI
(src/db.py, class DictionaryDB). The three SQLite tables are modelled as
lists of rows in rowid (insertion) order; each public method becomes a pure
function on that state. SQLite INSERT OR REPLACE against a UNIQUE
constraint deletes every conflicting row and appends the new one; INSERT OR
IGNORE drops a conflicting insert silently; a statement error inside a
`with self.conn` block rolls the whole transaction back and re-raises.
Python str.lower is modelled by pyLower, character-wise
Char.toLower over the char list (the same folding String.toLower applies).
-/

namespace StoryKeeper

/-- One row of the dictionary table, projected to the six data columns that
every SELECT in db.py reads; the surrogate id column is not observable
through the public methods and is omitted. sense_number is an SQLite
INTEGER, modelled as Int. -/
structure Row where
  word : String
  category : String
  part_of_speech : String
  definition : String
  context_hint : String
  sense_number : Int
deriving DecidableEq, Repr

/-- Key of the UNIQUE(word, category, part_of_speech, sense_number)
constraint on the dictionary table (db.py line 38). -/
def Row.key (r : Row) : String × String × String × Int :=
  (r.word, r.category, r.part_of_speech, r.sense_number)

/-- State of the three tables created by DictionaryDB._create_tables, each
as a list of rows in rowid (insertion) order. -/
structure Store where
  dictionary : List Row
  contexts : List String
  settings : List (String × String)
deriving DecidableEq, Repr

/-- Python str.lower: character-wise case folding, the folding that
String.toLower applies (written over the char list so that concrete
instances reduce). -/
def pyLower (s : String) : String :=
  ⟨s.data.map Char.toLower⟩

/-- SQLite INSERT OR REPLACE against UNIQUE(word, category, part_of_speech,
sense_number): every conflicting row is deleted, then the new row is
inserted with a fresh rowid (appended at the end). -/
def insertOrReplace (r : Row) (rows : List Row) : List Row :=
  rows.filter (fun q => decide (q.key ≠ r.key)) ++ [r]

/-- DictionaryDB.add_entry (db.py lines 81-89): lowercases the word, then
INSERT OR REPLACE of the six columns. Python defaults sense_number to 1. -/
def add_entry (word category pos definition context : String) (sense_number : Int)
    (st : Store) : Store :=
  { st with dictionary :=
      (insertOrReplace ⟨pyLower word, category, pos, definition, context, sense_number⟩
        st.dictionary) }

/-- DictionaryDB.add_multiple_entries (db.py lines 91-100): one transaction
looping the same INSERT OR REPLACE statement over the
(pos, definition, context, sense_number) tuples. -/
def add_multiple_entries (word category : String) :
    List (String × String × String × Int) → Store → Store
  | [], st => st
  | (pos, definition, context, sense_number) :: rest, st =>
      add_multiple_entries word category rest
        { st with dictionary :=
            (insertOrReplace ⟨pyLower word, category, pos, definition, context, sense_number⟩
              st.dictionary) }

/-- DictionaryDB.delete_entry (db.py lines 102-109): with a sense_number,
DELETE FROM dictionary WHERE word = ? AND sense_number = ?; otherwise
DELETE FROM dictionary WHERE word = ?. The word is lowercased before
matching. Python defaults sense_number to None. -/
def delete_entry (word : String) (sense_number : Option Int) (st : Store) : Store :=
  match sense_number with
  | some s =>
      { st with dictionary :=
          (st.dictionary.filter
            (fun r => decide (¬(r.word = pyLower word ∧ r.sense_number = s)))) }
  | none =>
      { st with dictionary :=
          st.dictionary.filter (fun r => decide (r.word ≠ pyLower word)) }

/-- Comparator realising ORDER BY word, sense_number. -/
def rowLE (a b : Row) : Bool :=
  decide (a.word < b.word ∨ (a.word = b.word ∧ a.sense_number ≤ b.sense_number))

/-- DictionaryDB.get_all_entries (db.py lines 111-119): SELECT of the six
columns ORDER BY word, sense_number. -/
def get_all_entries (st : Store) : List Row :=
  st.dictionary.mergeSort rowLE

/-- DictionaryDB.add_context (db.py lines 133-136): INSERT OR IGNORE INTO
contexts(name); a duplicate name leaves the table unchanged. -/
def add_context (name : String) (st : Store) : Store :=
  { st with contexts := if name ∈ st.contexts then st.contexts else st.contexts ++ [name] }

/-- DictionaryDB.delete_context (db.py lines 138-141). -/
def delete_context (name : String) (st : Store) : Store :=
  { st with contexts := st.contexts.filter (fun n => decide (n ≠ name)) }

/-- DictionaryDB.rename_context (db.py lines 143-146): UPDATE contexts SET
name = ? WHERE name = ?. Under the UNIQUE(name) invariant the update hits
an IntegrityError exactly when a row named old_name is being rewritten to a
different name that another row already carries; the surrounding
`with self.conn` block then rolls back and re-raises. -/
def rename_context (old_name new_name : String) (st : Store) : Except String Store :=
  if old_name ∈ st.contexts ∧ new_name ≠ old_name ∧ new_name ∈ st.contexts then
    Except.error "UNIQUE constraint failed: contexts.name"
  else
    Except.ok
      { st with contexts := st.contexts.map (fun n => if n = old_name then new_name else n) }

/-- Store seen by the caller after rename_context: on an IntegrityError the
transaction is rolled back, so the store is unchanged. -/
def run_rename_context (old_name new_name : String) (st : Store) : Store :=
  match rename_context old_name new_name st with
  | Except.ok st2 => st2
  | Except.error _ => st

/-- DictionaryDB.set_setting (db.py lines 155-158): INSERT OR REPLACE keyed
on the settings primary key. -/
def set_setting (key value : String) (st : Store) : Store :=
  { st with settings := st.settings.filter (fun p => decide (p.1 ≠ key)) ++ [(key, value)] }

/-- Default context names seeded by DictionaryDB._prepopulate_contexts
(db.py lines 71-74). -/
def defaultContexts : List String :=
  ["Species", "Planet", "Language", "Culture", "Artifact",
   "Event", "Location", "Organization", "Concept", "Adjective (race-like)"]

/-- INSERT OR IGNORE of each name in order, as looped by
_prepopulate_contexts and import_contexts. -/
def insertIgnoreAll (names : List String) (contexts : List String) : List String :=
  names.foldl (fun cs n => if n ∈ cs then cs else cs ++ [n]) contexts

/-- DictionaryDB._prepopulate_contexts (db.py lines 69-77). -/
def prepopulate_contexts (st : Store) : Store :=
  { st with contexts := insertIgnoreAll defaultContexts st.contexts }

/-- Store produced by DictionaryDB.__init__ on a fresh database file:
_create_tables and _migrate_schema leave three empty tables, then
_prepopulate_contexts seeds the ten default context names. -/
def freshStore : Store :=
  prepopulate_contexts ⟨[], [], []⟩

/-- One JSON object of dictionary.json as consumed by import_dictionary; a
Python dict, so any field may be absent. -/
structure JsonEntry where
  word : Option String
  category : Option String
  part_of_speech : Option String
  definition : Option String
  context_hint : Option String
  sense_number : Option Int
deriving DecidableEq, Repr

/-- Mapping built for each row by DictionaryDB.export_dictionary
(db.py lines 166-173): all six fields present. -/
def Row.toJson (r : Row) : JsonEntry :=
  ⟨some r.word, some r.category, some r.part_of_speech, some r.definition,
   some r.context_hint, some r.sense_number⟩

/-- DictionaryDB.export_dictionary (db.py lines 162-174): one mapping per
row of get_all_entries, in that order. -/
def export_dictionary (st : Store) : List JsonEntry :=
  (get_all_entries st).map Row.toJson

/-- Reading one import row (db.py lines 190-191): entry[...] raises KeyError
when word, category, part_of_speech, definition or context_hint is absent;
entry.get defaults sense_number to 1. The word is NOT lowercased here. -/
def readEntry (e : JsonEntry) : Option Row :=
  match e.word, e.category, e.part_of_speech, e.definition, e.context_hint with
  | some w, some c, some p, some d, some h =>
      some ⟨w, c, p, d, h, e.sense_number.getD 1⟩
  | _, _, _, _, _ => none

/-- Loop of import_dictionary inside the transaction: INSERT OR REPLACE per
row, aborting on the first KeyError. -/
def importRows : List JsonEntry → List Row → Option (List Row)
  | [], rows => some rows
  | e :: es, rows =>
      match readEntry e with
      | none => none
      | some r => importRows es (insertOrReplace r rows)

/-- DictionaryDB.import_dictionary (db.py lines 180-192): one transaction
that in replace mode first runs DELETE FROM dictionary, then inserts each
input row; any other mode string acts as merge. A KeyError on any row
aborts the whole transaction. Python defaults mode to merge. -/
def import_dictionary (data : List JsonEntry) (mode : String) (st : Store) :
    Except String Store :=
  match importRows data (if mode = "replace" then [] else st.dictionary) with
  | some rows => Except.ok { st with dictionary := rows }
  | none => Except.error "KeyError"

/-- Store seen by the caller after import_dictionary: on KeyError the
transaction is rolled back, leaving the store unchanged. -/
def run_import_dictionary (data : List JsonEntry) (mode : String) (st : Store) : Store :=
  match import_dictionary data mode st with
  | Except.ok st2 => st2
  | Except.error _ => st

/-- One JSON object of contexts.json; the name key may be absent. -/
structure CtxJson where
  name : Option String
deriving DecidableEq, Repr

/-- Loop of import_contexts inside the transaction: INSERT OR IGNORE per
row, aborting on the first KeyError. -/
def importCtxRows : List CtxJson → List String → Option (List String)
  | [], cs => some cs
  | e :: es, cs =>
      match e.name with
      | none => none
      | some n => importCtxRows es (if n ∈ cs then cs else cs ++ [n])

/-- DictionaryDB.import_contexts (db.py lines 194-200): one transaction that
in replace mode first runs DELETE FROM contexts, then INSERT OR IGNORE of
each input name. -/
def import_contexts (data : List CtxJson) (mode : String) (st : Store) :
    Except String Store :=
  match importCtxRows data (if mode = "replace" then [] else st.contexts) with
  | some cs => Except.ok { st with contexts := cs }
  | none => Except.error "KeyError"

/-- Store seen by the caller after import_contexts: on KeyError the
transaction is rolled back, leaving the store unchanged. -/
def run_import_contexts (data : List CtxJson) (mode : String) (st : Store) : Store :=
  match import_contexts data mode st with
  | Except.ok st2 => st2
  | Except.error _ => st

/-- Invariant maintained by UNIQUE(word, category, part_of_speech,
sense_number): the keys of the stored rows are pairwise distinct. -/
def KeyUnique (rows : List Row) : Prop :=
  rows.Pairwise (fun a b => a.key ≠ b.key)

/-- Every stored word is the image of some string under case-folding. -/
def LowercaseWords (st : Store) : Prop :=
  ∀ r ∈ st.dictionary, ∃ w, r.word = pyLower w

/-- Store states reachable from a fresh database through every write method
of DictionaryDB except import_dictionary. -/
inductive ReachableNoDictImport : Store → Prop
  | init : ReachableNoDictImport freshStore
  | add {st} (word category pos definition context : String) (sense_number : Int) :
      ReachableNoDictImport st →
      ReachableNoDictImport (add_entry word category pos definition context sense_number st)
  | addMany {st} (word category : String) (es : List (String × String × String × Int)) :
      ReachableNoDictImport st →
      ReachableNoDictImport (add_multiple_entries word category es st)
  | del {st} (word : String) (sense : Option Int) :
      ReachableNoDictImport st → ReachableNoDictImport (delete_entry word sense st)
  | addCtx {st} (name : String) :
      ReachableNoDictImport st → ReachableNoDictImport (add_context name st)
  | delCtx {st} (name : String) :
      ReachableNoDictImport st → ReachableNoDictImport (delete_context name st)
  | renameCtx {st} (old_name new_name : String) :
      ReachableNoDictImport st →
      ReachableNoDictImport (run_rename_context old_name new_name st)
  | setSetting {st} (key value : String) :
      ReachableNoDictImport st → ReachableNoDictImport (set_setting key value st)
  | importCtx {st} (data : List CtxJson) (mode : String) :
      ReachableNoDictImport st → ReachableNoDictImport (run_import_contexts data mode st)

/-- Concrete store holding two rows under two distinct words. -/
def c1Store : Store :=
  add_entry "kaneran" "Species" "Noun" "An alien species." "Sci-fi context" 1
    (add_entry "tarvek" "Culture" "Noun" "A nomad clan." "Worldbuilding" 2 freshStore)

/-- Concrete store holding the word w with sense 1 under two categories. -/
def c2Store : Store :=
  add_entry "w" "B" "Verb" "d2" "c" 1 (add_entry "w" "A" "Noun" "d1" "c" 1 freshStore)

/-- Concrete import payload whose single row carries a non-lowercase word. -/
def c3Data : List JsonEntry :=
  [⟨some "Word", some "General", some "Noun", some "a definition", some "", some 1⟩]

/-- Concrete store holding one row, used to observe rollback. -/
def c4Store : Store :=
  add_entry "kaneran" "Species" "Noun" "keep me" "ctx" 1 freshStore

/-- Concrete import payload whose second row is missing the category key. -/
def c4Data : List JsonEntry :=
  [⟨some "alpha", some "General", some "Noun", some "d1", some "", some 1⟩,
   ⟨some "beta", none, some "Noun", some "d2", some "", none⟩]

/-- Concrete store with one pre-existing row unrelated to c7Data. -/
def c7Store : Store :=
  add_entry "old" "General" "Noun" "pre-existing" "" 1 freshStore

/-- Concrete well-formed two-row import payload with distinct keys; the
second row omits sense_number, which defaults to 1. -/
def c7Data : List JsonEntry :=
  [⟨some "alpha", some "General", some "Noun", some "d1", some "x", some 1⟩,
   ⟨some "beta", some "Species", some "Verb", some "d2", some "y", none⟩]

/-- Rows denoted by c7Data. -/
def c7Rows : List Row :=
  [⟨"alpha", "General", "Noun", "d1", "x", 1⟩,
   ⟨"beta", "Species", "Verb", "d2", "y", 1⟩]

/-- C5: for any (word, category, pos, sense) tuple, upserting first
definition d1 and then definition d2 with the same context leaves exactly
one row for that tuple, and its definition is d2. -/
theorem upsert_twice_single_row_second_definition
    (w c p d1 d2 ctx : String) (s : Int) (st : Store) :
    (add_entry w c p d2 ctx s (add_entry w c p d1 ctx s st)).dictionary.filter
        (fun r => decide (r.key = (pyLower w, c, p, s)))
      = [(⟨pyLower w, c, p, d2, ctx, s⟩ : Row)] := by
  simp only [add_entry, insertOrReplace, List.filter_append, List.filter_filter]
  have h1 : ∀ l : List Row,
      l.filter (fun r => decide (r.key = (pyLower w, c, p, s)) &&
        decide (r.key ≠ Row.key ⟨pyLower w, c, p, d2, ctx, s⟩)) = [] := by
    intro l
    apply List.filter_eq_nil_iff.mpr
    intro r _
    simp [Row.key]
  have h2 : ∀ l : List Row, ∀ d : String,
      l.filter (fun r => decide (r.key = (pyLower w, c, p, s)) &&
        (decide (r.key ≠ Row.key ⟨pyLower w, c, p, d, ctx, s⟩) &&
          decide (r.key ≠ Row.key ⟨pyLower w, c, p, d2, ctx, s⟩))) = [] := by
    intro l d
    apply List.filter_eq_nil_iff.mpr
    intro r _
    simp [Row.key]
  simp [Row.key, h1, h2]

/-- C2 amended: delete_entry with a sense number removes exactly the rows
whose lowercased word and sense_number both match, across every category
and part of speech, and leaves every other row and the other two tables
unchanged. -/
theorem delete_by_sense_removes_all_matches (w : String) (s : Int) (st : Store) :
    (∀ r, r ∈ (delete_entry w (some s) st).dictionary ↔
        r ∈ st.dictionary ∧ ¬(r.word = pyLower w ∧ r.sense_number = s)) ∧
    (delete_entry w (some s) st).contexts = st.contexts ∧
    (delete_entry w (some s) st).settings = st.settings := by
  refine ⟨fun r => ?_, rfl, rfl⟩
  simp only [delete_entry, List.mem_filter, decide_eq_true_eq]

/-- C2 counterexample: in a store where the word w carries sense 1 under
two different categories, delete_entry with sense 1 removes both rows, not
exactly one. -/
theorem delete_by_sense_two_categories_cex :
    c2Store.dictionary.length = 2 ∧
    (delete_entry "w" (some 1) c2Store).dictionary = [] := by
  constructor
  · decide
  · decide

/-- C6: add_multiple_entries is exactly the single-entry upsert add_entry
applied once per (pos, definition, context, sense_number) tuple in order;
in this embedding no write fails, so every write of the batch is applied. -/
theorem add_multiple_entries_applies_each_upsert (w c : String)
    (es : List (String × String × String × Int)) (st : Store) :
    add_multiple_entries w c es st
      = es.foldl (fun s e => add_entry w c e.1 e.2.1 e.2.2.1 e.2.2.2 s) st := by
  induction es generalizing st with
  | nil => rfl
  | cons e rest ih =>
    obtain ⟨p, d, ctx, n⟩ := e
    simp only [add_multiple_entries, List.foldl_cons, add_entry]
    exact ih _

/-- C8: rename_context touches only the contexts table — the dictionary and
settings tables are unchanged whether the update succeeds or is rolled
back — and when old_name is not a stored context the call succeeds and
changes nothing at all. -/
theorem rename_context_frame (old_name new_name : String) (st : Store) :
    (run_rename_context old_name new_name st).dictionary = st.dictionary ∧
    (run_rename_context old_name new_name st).settings = st.settings ∧
    (old_name ∉ st.contexts → rename_context old_name new_name st = Except.ok st) := by
  by_cases h : old_name ∈ st.contexts ∧ new_name ≠ old_name ∧ new_name ∈ st.contexts
  · refine ⟨?_, ?_, ?_⟩
    · simp [run_rename_context, rename_context, h]
    · simp [run_rename_context, rename_context, h]
    · intro hn
      exact absurd h.1 hn
  · have hmap : old_name ∉ st.contexts →
        st.contexts.map (fun n => if n = old_name then new_name else n) = st.contexts := by
      intro hn
      have hid : ∀ n ∈ st.contexts, (if n = old_name then new_name else n) = id n := by
        intro n hnmem
        simp only [id]
        rw [if_neg]
        intro he
        exact hn (he ▸ hnmem)
      rw [List.map_congr_left hid, List.map_id]
    refine ⟨?_, ?_, ?_⟩
    · simp [run_rename_context, rename_context, h]
    · simp [run_rename_context, rename_context, h]
    · intro hn
      simp only [rename_context, if_neg h, hmap hn]

/-- C10: when old_name and new_name are both stored contexts and differ,
rename_context raises the UNIQUE constraint error, the transaction rolls
back leaving the store unchanged, old_name is still present, and under the
UNIQUE(name) invariant exactly one row is named new_name. -/
theorem rename_context_conflict_error (old_name new_name : String) (st : Store)
    (h1 : old_name ∈ st.contexts) (h2 : new_name ∈ st.contexts)
    (h3 : old_name ≠ new_name) :
    rename_context old_name new_name st
        = Except.error "UNIQUE constraint failed: contexts.name" ∧
    run_rename_context old_name new_name st = st ∧
    old_name ∈ (run_rename_context old_name new_name st).contexts ∧
    (st.contexts.Nodup →
      (run_rename_context old_name new_name st).contexts.count new_name = 1) := by
  have hc : old_name ∈ st.contexts ∧ new_name ≠ old_name ∧ new_name ∈ st.contexts :=
    ⟨h1, Ne.symm h3, h2⟩
  have herr : rename_context old_name new_name st
      = Except.error "UNIQUE constraint failed: contexts.name" := by
    simp [rename_context, hc]
  have hrun : run_rename_context old_name new_name st = st := by
    simp [run_rename_context, herr]
  refine ⟨herr, hrun, ?_, ?_⟩
  · rw [hrun]; exact h1
  · intro hnd
    rw [hrun]
    exact List.count_eq_one_of_mem hnd h2

/-- C10 witness: two seeded default contexts conflict concretely. -/
theorem rename_context_conflict_error_witness :
    rename_context "Species" "Planet" freshStore
        = Except.error "UNIQUE constraint failed: contexts.name" ∧
    run_rename_context "Species" "Planet" freshStore = freshStore := by
  have h := rename_context_conflict_error "Species" "Planet" freshStore
    (by decide) (by decide) (by decide)
  exact ⟨h.1, h.2.1⟩

/-- C8 witness: renaming an absent context name succeeds and is a no-op. -/
theorem rename_context_frame_witness :
    rename_context "Galaxy" "Universe" freshStore = Except.ok freshStore := by
  exact (rename_context_frame "Galaxy" "Universe" freshStore).2.2 (by decide)

/-- Helper: a malformed row anywhere in the payload makes the import loop
abort. -/
theorem importRows_none_of_malformed (data : List JsonEntry) (acc : List Row)
    (h : ∃ e ∈ data, readEntry e = none) :
    importRows data acc = none := by
  induction data generalizing acc with
  | nil => simp at h
  | cons e es ih =>
    obtain ⟨e2, he2, hnone⟩ := h
    rcases List.mem_cons.mp he2 with rfl | hmem
    · simp [importRows, hnone]
    · cases hre : readEntry e with
      | none => simp [importRows, hre]
      | some r =>
        simp only [importRows, hre]
        exact ih _ ⟨e2, hmem, hnone⟩

/-- C4: an input row missing a required field makes import_dictionary raise
KeyError and the whole transaction roll back, so the caller-visible store —
including, in replace mode, the rows the initial DELETE had removed — is
exactly the store before the call. -/
theorem import_dictionary_malformed_aborts (data : List JsonEntry) (mode : String)
    (st : Store) (h : ∃ e ∈ data, readEntry e = none) :
    import_dictionary data mode st = Except.error "KeyError" ∧
    run_import_dictionary data mode st = st := by
  have h2 := importRows_none_of_malformed data
    (if mode = "replace" then [] else st.dictionary) h
  constructor
  · simp [import_dictionary, h2]
  · simp [run_import_dictionary, import_dictionary, h2]

/-- C4 witness: a replace-mode import whose second row lacks the category
field errors out and leaves the one pre-existing row in place. -/
theorem import_dictionary_malformed_aborts_witness :
    import_dictionary c4Data "replace" c4Store = Except.error "KeyError" ∧
    run_import_dictionary c4Data "replace" c4Store = c4Store := by
  refine import_dictionary_malformed_aborts c4Data "replace" c4Store ?_
  exact ⟨⟨some "beta", none, some "Noun", some "d2", some "", none⟩, by decide, by decide⟩

/-- Helper: the idempotent-insert loop only ever grows its accumulator. -/
theorem mem_insertIgnoreAll_of_mem (ds : List String) (cs : List String) (c : String)
    (h : c ∈ cs) : c ∈ insertIgnoreAll ds cs := by
  induction ds generalizing cs with
  | nil => simpa [insertIgnoreAll] using h
  | cons d rest ih =>
    simp only [insertIgnoreAll, List.foldl_cons] at *
    apply ih
    by_cases h2 : d ∈ cs <;> simp [h2, h]

/-- Helper: every inserted name is present afterwards. -/
theorem mem_insertIgnoreAll_of_mem_names (ds : List String) (cs : List String) (c : String)
    (h : c ∈ ds) : c ∈ insertIgnoreAll ds cs := by
  induction ds generalizing cs with
  | nil => simp at h
  | cons d rest ih =>
    simp only [insertIgnoreAll, List.foldl_cons] at *
    rcases List.mem_cons.mp h with rfl | h2
    · apply mem_insertIgnoreAll_of_mem
      by_cases hm : c ∈ cs <;> simp [hm]
    · exact ih _ h2

/-- Helper: inserting only already-present names changes nothing. -/
theorem insertIgnoreAll_eq_of_all_mem (ds : List String) (cs : List String)
    (h : ∀ d ∈ ds, d ∈ cs) : insertIgnoreAll ds cs = cs := by
  induction ds with
  | nil => rfl
  | cons d rest ih =>
    have hd : d ∈ cs := h d (by simp)
    simp only [insertIgnoreAll, List.foldl_cons, if_pos hd] at *
    exact ih (fun x hx => h x (by simp [hx]))

/-- Helper: running the context seeding twice equals running it once. -/
theorem prepopulate_idem (st : Store) :
    prepopulate_contexts (prepopulate_contexts st) = prepopulate_contexts st := by
  have h : insertIgnoreAll defaultContexts (insertIgnoreAll defaultContexts st.contexts)
      = insertIgnoreAll defaultContexts st.contexts :=
    insertIgnoreAll_eq_of_all_mem _ _
      (fun d hd => mem_insertIgnoreAll_of_mem_names _ _ _ hd)
  simp only [prepopulate_contexts, h]

/-- Helper: add_context twice is add_context once. -/
theorem add_context_idem (n : String) (st : Store) :
    add_context n (add_context n st) = add_context n st := by
  by_cases hm : n ∈ st.contexts <;> simp [add_context, hm]

/-- Helper: add_context preserves the UNIQUE(name) invariant. -/
theorem add_context_contexts_nodup (n : String) (st : Store) (h : st.contexts.Nodup) :
    (add_context n st).contexts.Nodup := by
  by_cases hm : n ∈ st.contexts
  · simpa [add_context, hm] using h
  · simp [add_context, hm, List.nodup_append, h]

/-- Helper: the added name is stored. -/
theorem mem_add_context (n : String) (st : Store) : n ∈ (add_context n st).contexts := by
  by_cases hm : n ∈ st.contexts <;> simp [add_context, hm]

/-- Helper: merge-mode context import of an already-present name is a
silent no-op. -/
theorem import_contexts_merge_dup (n : String) (st : Store) (h : n ∈ st.contexts) :
    import_contexts [⟨some n⟩] "merge" st = Except.ok st := by
  have hne : ¬ (("merge" : String) = "replace") := by decide
  simp [import_contexts, importCtxRows, hne, h]

/-- C9: inserting a context name that is already present is a silent no-op
along each insertion path — add_context, import_contexts in merge mode, and
the seeding loop — and under the UNIQUE(name) invariant exactly one stored
row carries the name. -/
theorem context_duplicate_add_single_row (n : String) (st : Store)
    (h : st.contexts.Nodup) :
    add_context n (add_context n st) = add_context n st ∧
    (add_context n (add_context n st)).contexts.count n = 1 ∧
    import_contexts [⟨some n⟩] "merge" (add_context n st) = Except.ok (add_context n st) ∧
    prepopulate_contexts (prepopulate_contexts st) = prepopulate_contexts st := by
  refine ⟨add_context_idem n st, ?_, ?_, prepopulate_idem st⟩
  · rw [add_context_idem n st]
    exact List.count_eq_one_of_mem (add_context_contexts_nodup n st h) (mem_add_context n st)
  · exact import_contexts_merge_dup n (add_context n st) (mem_add_context n st)

/-- C9 witness: adding the fresh name Zeta twice to a seeded store keeps a
single row for it. -/
theorem context_duplicate_add_single_row_witness :
    add_context "Zeta" (add_context "Zeta" freshStore) = add_context "Zeta" freshStore ∧
    (add_context "Zeta" (add_context "Zeta" freshStore)).contexts.count "Zeta" = 1 := by
  have h := context_duplicate_add_single_row "Zeta" freshStore (by decide)
  exact ⟨h.1, h.2.1⟩

/-- Helper: the import loop over well-formed rows whose keys are fresh for
the accumulator and pairwise distinct appends exactly the parsed rows. -/
theorem importRows_wellformed (data : List JsonEntry) (rows : List Row)
    (hwf : List.Forall₂ (fun e r => readEntry e = some r) data rows) :
    ∀ acc : List Row, (∀ r ∈ rows, ∀ q ∈ acc, q.key ≠ r.key) → KeyUnique rows →
      importRows data acc = some (acc ++ rows) := by
  induction hwf with
  | nil =>
    intro acc _ _
    simp [importRows]
  | cons h1 h2 ih =>
    rename_i a b l1 l2
    intro acc hdisj hku
    have hku0 : (b :: l2).Pairwise (fun x y => x.key ≠ y.key) := hku
    have hhead : ∀ r ∈ l2, b.key ≠ r.key := (List.pairwise_cons.mp hku0).1
    have hku2 : KeyUnique l2 := (List.pairwise_cons.mp hku0).2
    have hacc : insertOrReplace b acc = acc ++ [b] := by
      simp only [insertOrReplace]
      congr 1
      apply List.filter_eq_self.mpr
      intro q hq
      simp only [decide_eq_true_eq]
      exact hdisj b (List.mem_cons_self _ _) q hq
    have hdisj2 : ∀ r ∈ l2, ∀ q ∈ acc ++ [b], q.key ≠ r.key := by
      intro r hr q hq
      rcases List.mem_append.mp hq with hq2 | hq2
      · exact hdisj r (List.mem_cons_of_mem _ hr) q hq2
      · rcases List.mem_singleton.mp hq2 with rfl
        exact hhead r hr
    have hrec := ih (acc ++ [b]) hdisj2 hku2
    simp only [importRows, h1, hacc, hrec]
    simp

/-- Helper: each exported mapping parses back to exactly its row. -/
theorem forall₂_readEntry_toJson (l : List Row) :
    List.Forall₂ (fun e r => readEntry e = some r) (l.map Row.toJson) l := by
  induction l with
  | nil => exact List.Forall₂.nil
  | cons r rest ih => exact List.Forall₂.cons rfl ih

/-- Decidability of the UNIQUE-key invariant, for concrete instantiation. -/
instance decKeyUnique (rows : List Row) : Decidable (KeyUnique rows) :=
  inferInstanceAs (Decidable (rows.Pairwise (fun a b : Row => a.key ≠ b.key)))

/-- C1: exporting every entry and merge-importing the result into a fresh
store succeeds and reproduces exactly the original rows up to order, every
one of the six fields preserved. -/
theorem export_import_merge_roundtrip (st : Store) (hku : KeyUnique st.dictionary) :
    ∃ st2, import_dictionary (export_dictionary st) "merge" freshStore = Except.ok st2 ∧
      st2.dictionary.Perm st.dictionary := by
  have hperm : (st.dictionary.mergeSort rowLE).Perm st.dictionary :=
    List.mergeSort_perm st.dictionary rowLE
  have hkus : KeyUnique (st.dictionary.mergeSort rowLE) :=
    (List.Perm.pairwise_iff (fun h => Ne.symm h) hperm).mpr hku
  have hwf := forall₂_readEntry_toJson (st.dictionary.mergeSort rowLE)
  have hrows := importRows_wellformed _ _ hwf [] (by simp) hkus
  refine ⟨{ freshStore with dictionary := st.dictionary.mergeSort rowLE }, ?_, hperm⟩
  have hne : ¬ (("merge" : String) = "replace") := by decide
  have hfd : freshStore.dictionary = [] := rfl
  simp only [import_dictionary, export_dictionary, get_all_entries, if_neg hne, hfd,
    hrows, List.nil_append]

/-- C1 witness: the round trip at a concrete two-row store. -/
theorem export_import_merge_roundtrip_witness :
    KeyUnique c1Store.dictionary ∧
    (∃ st2, import_dictionary (export_dictionary c1Store) "merge" freshStore
        = Except.ok st2 ∧ st2.dictionary.Perm c1Store.dictionary) :=
  ⟨by decide, export_import_merge_roundtrip c1Store (by decide)⟩

/-- C7: a replace-mode import of a well-formed payload with pairwise
distinct keys purges every pre-existing row and leaves exactly the parsed
rows: as many rows as the payload has entries, whatever the store held. -/
theorem import_replace_yields_exactly_imported_rows (data : List JsonEntry)
    (rows : List Row) (st : Store)
    (hwf : List.Forall₂ (fun e r => readEntry e = some r) data rows)
    (hku : KeyUnique rows) :
    import_dictionary data "replace" st = Except.ok { st with dictionary := rows } ∧
    (run_import_dictionary data "replace" st).dictionary.length = data.length := by
  have hrows := importRows_wellformed _ _ hwf [] (by simp) hku
  have hlen : data.length = rows.length := List.Forall₂.length_eq hwf
  have hok : import_dictionary data "replace" st = Except.ok { st with dictionary := rows } := by
    simp [import_dictionary, hrows]
  refine ⟨hok, ?_⟩
  simp only [run_import_dictionary, hok, hlen]

/-- C7 witness: importing two fresh entries in replace mode over one
pre-existing row leaves exactly the two imported rows. -/
theorem import_replace_yields_exactly_imported_rows_witness :
    import_dictionary c7Data "replace" c7Store
        = Except.ok { c7Store with dictionary := c7Rows } ∧
    (run_import_dictionary c7Data "replace" c7Store).dictionary.length = 2 := by
  have h := import_replace_yields_exactly_imported_rows c7Data c7Rows c7Store
    (List.Forall₂.cons rfl (List.Forall₂.cons rfl List.Forall₂.nil)) (by decide)
  exact ⟨h.1, h.2⟩

/-- C3 counterexample: import_dictionary stores the word exactly as the
payload gives it — merge-importing the word Word into a fresh store leaves
a stored word that case-folding would have changed. -/
theorem import_dictionary_preserves_case_cex :
    (run_import_dictionary c3Data "merge" freshStore).dictionary.map Row.word = ["Word"] ∧
    pyLower "Word" ≠ "Word" := by
  constructor
  · decide
  · decide

/-- Helper: LowercaseWords only looks at the dictionary table. -/
theorem lowercaseWords_of_eq_dict {st st2 : Store} (h : st2.dictionary = st.dictionary)
    (hl : LowercaseWords st) : LowercaseWords st2 := by
  intro r hr
  exact hl r (h ▸ hr)

/-- Helper: add_entry stores only case-folded words. -/
theorem lowercaseWords_add_entry (w c p d ctx : String) (s : Int) {st : Store}
    (h : LowercaseWords st) : LowercaseWords (add_entry w c p d ctx s st) := by
  intro r hr
  simp only [add_entry, insertOrReplace, List.mem_append, List.mem_filter,
    List.mem_singleton] at hr
  rcases hr with ⟨hr2, _⟩ | rfl
  · exact h r hr2
  · exact ⟨w, rfl⟩

/-- Helper: add_multiple_entries stores only case-folded words. -/
theorem lowercaseWords_add_multiple (w c : String)
    (es : List (String × String × String × Int)) {st : Store}
    (h : LowercaseWords st) : LowercaseWords (add_multiple_entries w c es st) := by
  induction es generalizing st with
  | nil => exact h
  | cons e rest ih =>
    obtain ⟨p, d, ctx, n⟩ := e
    apply ih
    intro r hr
    simp only [insertOrReplace, List.mem_append, List.mem_filter,
      List.mem_singleton] at hr
    rcases hr with ⟨hr2, _⟩ | rfl
    · exact h r hr2
    · exact ⟨w, rfl⟩

/-- Helper: delete_entry only removes rows. -/
theorem lowercaseWords_delete (w : String) (s : Option Int) {st : Store}
    (h : LowercaseWords st) : LowercaseWords (delete_entry w s st) := by
  cases s with
  | some s2 =>
    intro r hr
    exact h r (List.mem_filter.mp hr).1
  | none =>
    intro r hr
    exact h r (List.mem_filter.mp hr).1

/-- Helper: rename_context never touches the dictionary table. -/
theorem run_rename_context_dictionary (old_name new_name : String) (st : Store) :
    (run_rename_context old_name new_name st).dictionary = st.dictionary := by
  by_cases h : old_name ∈ st.contexts ∧ new_name ≠ old_name ∧ new_name ∈ st.contexts <;>
    simp [run_rename_context, rename_context, h]

/-- Helper: import_contexts never touches the dictionary table. -/
theorem run_import_contexts_dictionary (data : List CtxJson) (mode : String) (st : Store) :
    (run_import_contexts data mode st).dictionary = st.dictionary := by
  unfold run_import_contexts import_contexts
  cases importCtxRows data (if mode = "replace" then [] else st.contexts) <;> rfl

/-- C3 amended: add_entry and add_multiple_entries case-fold the word to
lowercase before storage, so in every store state reachable without
import_dictionary every stored word is the case-folding of some string;
import_dictionary itself (see the counterexample) stores words as given. -/
theorem words_lowercase_without_import (st : Store) (h : ReachableNoDictImport st) :
    LowercaseWords st := by
  induction h with
  | init => intro r hr; cases hr
  | add w c p d ctx s hst ih => exact lowercaseWords_add_entry w c p d ctx s ih
  | addMany w c es hst ih => exact lowercaseWords_add_multiple w c es ih
  | del w s hst ih => exact lowercaseWords_delete w s ih
  | addCtx n hst ih => exact lowercaseWords_of_eq_dict rfl ih
  | delCtx n hst ih => exact lowercaseWords_of_eq_dict rfl ih
  | renameCtx o n2 hst ih =>
    exact lowercaseWords_of_eq_dict (run_rename_context_dictionary o n2 _) ih
  | setSetting k v hst ih => exact lowercaseWords_of_eq_dict rfl ih
  | importCtx data mode hst ih =>
    exact lowercaseWords_of_eq_dict (run_import_contexts_dictionary data mode _) ih

/-- C3 amended witness: one add_entry of a mixed-case word from a fresh
store is reachable without import and stores only case-folded words. -/
theorem words_lowercase_without_import_witness :
    LowercaseWords (add_entry "Kaneran" "Species" "Noun" "an alien" "ctx" 1 freshStore) :=
  words_lowercase_without_import _
    (ReachableNoDictImport.add "Kaneran" "Species" "Noun" "an alien" "ctx" 1
      ReachableNoDictImport.init)

end StoryKeeper
